import Mathlib

/-!
Verification of the voice-command subsystem of the
`ai-powered-voice-controlled-task-and-project-manager` repository.

Part 1 embeds the concrete helper functions of `src/lib/utils.ts`
(`getConfidenceColor`, `truncateText`, `slugify`).  JavaScript strings are
modelled as lists of UTF-16 code units (`List Nat`); JavaScript numbers used
as confidence scores are modelled as rationals (`ℚ`), on which the literal
thresholds `0.8` and `0.6` are exact.

Part 2 models the voice command dispatcher subsystem (entity extractor,
intent classifier, conversation context store, command dispatcher) described
in the repository's design documents.  That subsystem is described by the
documentation but has no implementation under `src/`, so every definition in
Part 2 is modelled from the spec, as indicated by its doc comment.
-/

namespace VoiceUtils

/-- Embedding of `getConfidenceColor` from `src/lib/utils.ts` (lines 78-82):
`if (confidence >= 0.8) return 'text-green-600'; if (confidence >= 0.6)
return 'text-yellow-600'; return 'text-red-600';`.  The JavaScript number is
modelled as a rational, on which `0.8` and `0.6` are the exact values
`4/5` and `3/5`. -/
def getConfidenceColor (confidence : ℚ) : String :=
  if confidence ≥ 4 / 5 then "text-green-600"
  else if confidence ≥ 3 / 5 then "text-yellow-600"
  else "text-red-600"

/-- Embedding of `truncateText` from `src/lib/utils.ts` (lines 85-88):
`if (text.length <= maxLength) return text; return text.slice(0, maxLength)
+ '...';`.  Strings are lists of UTF-16 code units; `'.'` is code unit 46;
`slice(0, n)` on a string of length `> n` is `take n`. -/
def truncateText (text : List Nat) (maxLength : Nat) : List Nat :=
  if text.length ≤ maxLength then text else text.take maxLength ++ [46, 46, 46]


/-! Embedding of `slugify` from `src/lib/utils.ts` (lines 94-100):
```
text.toLowerCase()
  .replace(/[^\w\s-]/g, '')
  .replace(/[\s_-]+/g, '-')
  .replace(/^-+|-+$/g, '')
```
Each regex pass is modelled as a function on the list of code units.
`toLowerCase` applies the full Unicode lowercase mapping; `jsLower` models
it exactly on every mapping that can reach the output of `slugify`: the
ASCII mappings `A`-`Z` ↦ `a`-`z`, and the only two lowercase mappings in
Unicode that produce ASCII code units - U+0130 LATIN CAPITAL LETTER I WITH
DOT ABOVE ↦ `i` U+0307 (a length-changing full mapping, hence the
`flatMap` pipeline) and U+212A KELVIN SIGN ↦ `k`.  Every other cased code
point lowercases to non-ASCII code units only, and neither it nor its image
survives the following `[^\w\s-]` pass: `\w` matches ASCII only, no case
mapping produces a `\s` code unit or a hyphen, and astral-plane mappings
stay within surrogate code units; such mappings are therefore modelled as
the identity, which leaves the composite `slugify` function unchanged at
every input. -/

/-- Code units matched by the JavaScript regex class `\s`. -/
def jsSpace (c : Nat) : Bool :=
  decide ((9 ≤ c ∧ c ≤ 13) ∨ c = 32 ∨ c = 160 ∨ c = 5760 ∨
    (8192 ≤ c ∧ c ≤ 8202) ∨ c = 8232 ∨ c = 8233 ∨ c = 8239 ∨ c = 8287 ∨
    c = 12288 ∨ c = 65279)

/-- Code units matched by the JavaScript regex class `\w`:
`[A-Za-z0-9_]`. -/
def jsWordCode (c : Nat) : Bool :=
  decide ((48 ≤ c ∧ c ≤ 57) ∨ (65 ≤ c ∧ c ≤ 90) ∨ (97 ≤ c ∧ c ≤ 122) ∨ c = 95)

/-- The code unit of `'-'`. -/
def hyphenCode : Nat := 45

/-- `String.prototype.toLowerCase`, per code point, restricted to the case
mappings whose effect survives the `[^\w\s-]` pass: `A`-`Z` ↦ `a`-`z`,
U+0130 ↦ `i` U+0307, U+212A ↦ `k`.  All remaining case mappings send
non-ASCII code points to non-ASCII sequences that the next pass erases just
like the unmapped original, so they are modelled as the identity. -/
def jsLower (c : Nat) : List Nat :=
  if 65 ≤ c ∧ c ≤ 90 then [c + 32]
  else if c = 304 then [105, 775]
  else if c = 8490 then [107]
  else [c]

/-- Code units kept by the pass `.replace(/[^\w\s-]/g, '')`. -/
def keepCode (c : Nat) : Bool := jsWordCode c || jsSpace c || c == hyphenCode

/-- Code units matched by the regex class `[\s_-]`. -/
def sepCode (c : Nat) : Bool := jsSpace c || c == 95 || c == hyphenCode

/-- The pass `.replace(/[\s_-]+/g, '-')`: each maximal run of separator code
units is replaced by a single hyphen. -/
def collapseSeps : List Nat → List Nat
  | [] => []
  | c :: cs =>
    if sepCode c then hyphenCode :: collapseSeps (cs.dropWhile sepCode)
    else c :: collapseSeps cs
termination_by l => l.length
decreasing_by
  · simp only [List.length_cons]
    exact Nat.lt_succ_of_le (List.dropWhile_sublist sepCode).length_le
  · simp

/-- Removal of the trailing run of hyphens (the `-+$` alternative of the
final regex pass). -/
def dropTrailingHyphens : List Nat → List Nat
  | [] => []
  | c :: cs =>
    match dropTrailingHyphens cs with
    | [] => if c == hyphenCode then [] else [c]
    | r => c :: r

/-- The pass `.replace(/^-+|-+$/g, '')`: the leading and the trailing run of
hyphens are removed. -/
def trimHyphens (l : List Nat) : List Nat :=
  dropTrailingHyphens (l.dropWhile (fun c => c == hyphenCode))

/-- Embedding of `slugify` from `src/lib/utils.ts` (lines 94-100). -/
def slugify (text : List Nat) : List Nat :=
  trimHyphens (collapseSeps ((text.flatMap jsLower).filter keepCode))

/-- A code unit allowed in a slug: a lowercase ASCII letter, an ASCII digit,
or a hyphen. -/
def slugChar (c : Nat) : Bool :=
  decide ((97 ≤ c ∧ c ≤ 122) ∨ (48 ≤ c ∧ c ≤ 57)) || c == hyphenCode

/-- No two consecutive hyphens. -/
def noDoubleHyphen : List Nat → Bool
  | [] => true
  | [_] => true
  | a :: b :: rest =>
    !(a == hyphenCode && b == hyphenCode) && noDoubleHyphen (b :: rest)

/-- The well-formedness checker for slugs stated by claim C10: every code
unit is a lowercase letter, digit or hyphen; no leading hyphen; no trailing
hyphen; no two consecutive hyphens. -/
def goodSlug (l : List Nat) : Bool :=
  l.all slugChar && noDoubleHyphen l &&
  (match l.head? with
   | some c => !(c == hyphenCode)
   | none => true) &&
  (match l.getLast? with
   | some c => !(c == hyphenCode)
   | none => true)

end VoiceUtils

namespace VoiceDispatcher

/-- Modelled from the spec: the closed set of intents of the voice command
dispatcher (spec section 3, Intent). -/
inductive Intent
  | CreateTask
  | UpdateTask
  | CompleteTask
  | AssignTask
  | CreateProject
  | UpdateProject
  | QueryTasks
  | QueryProjects
  | Navigate
  | Help
  | Unknown
deriving DecidableEq, Repr

/-- Modelled from the spec: an EntitySet maps each slot name (task_name,
project_name, due_date, priority, assignee, status) to an optional extracted
value (spec section 3, EntitySet). -/
structure EntitySet where
  task_name : Option String
  project_name : Option String
  due_date : Option String
  priority : Option String
  assignee : Option String
  status : Option String
deriving DecidableEq, Repr

/-- Modelled from the spec: an intent together with the confidence that
produced it (spec section 3, Intent). -/
structure ClassifiedIntent where
  intent : Intent
  confidence : ℚ
deriving DecidableEq, Repr

/-- Modelled from the spec: an immutable utterance value - raw transcribed
text, a transcription confidence score, a timestamp and a session identifier
(spec section 3, Utterance). -/
structure Utterance where
  text : String
  confidence : ℚ
  timestamp : Nat
  sessionId : String

/-- Modelled from the spec: per-user multi-turn state - the pending intent,
the partially filled EntitySet, the last-activity timestamp and the turn
count (spec section 3, ConversationContext). -/
structure ConversationContext where
  pending : ClassifiedIntent
  entities : EntitySet
  lastActivity : Nat
  turnCount : Nat
deriving DecidableEq, Repr

/-- Modelled from the spec: the context storage is an explicit keyed store
from user id to context (spec section 9, design notes). -/
abbrev ContextStore := List (String × ConversationContext)

/-- Modelled from the spec: the inactivity window and the maximum turn count
of the expiry policy, kept configurable (spec sections 4.3 and 9). -/
structure DispatchConfig where
  inactivityWindow : Nat
  maxTurns : Nat

/-- Modelled from the spec: a context is expired iff
`now - lastActivity > inactivityWindow` OR `turnCount >= maxTurns`
(spec section 4.3). -/
def isExpired (cfg : DispatchConfig) (ctx : ConversationContext) (now : Nat) : Bool :=
  decide (cfg.inactivityWindow < now - ctx.lastActivity) ||
  decide (cfg.maxTurns ≤ ctx.turnCount)

/-- Modelled from the spec: `get(userId)` with lazy expiry - an expired
context is treated as absent by every reader (spec section 4.3). -/
def getContext (cfg : DispatchConfig) (store : ContextStore) (userId : String)
    (now : Nat) : Option ConversationContext :=
  match List.lookup userId store with
  | some ctx => if isExpired cfg ctx now = true then none else some ctx
  | none => none

/-- Modelled from the spec: `set(userId, context)` - keyed-map assignment,
replacing any previous entry of that user (spec section 4.3). -/
def setContext (store : ContextStore) (userId : String)
    (ctx : ConversationContext) : ContextStore :=
  (userId, ctx) :: store.filter (fun e => !(e.1 == userId))

/-- Modelled from the spec: `clear(userId)` - removes the entry of that user
(spec section 4.3). -/
def clearContext (store : ContextStore) (userId : String) : ContextStore :=
  store.filter (fun e => !(e.1 == userId))

/-- Modelled from the spec: the error taxonomy of the dispatcher (spec
section 7). -/
inductive VoiceError
  | TranscriptionFailure
  | ClassificationLowConfidence
  | ActionExecutionError
  | ContextExpired
deriving DecidableEq, Repr

/-- Modelled from the spec: the outcome of a dispatch - success flag,
human-readable response text, optional payload (a created/updated entity
reference), optional error kind (spec section 3, ActionResult). -/
structure ActionResult where
  success : Bool
  response : String
  payload : Option String
  error : Option VoiceError
deriving DecidableEq, Repr

/-- Modelled from the spec: one call to the external persistence
collaborator, carrying the intent, the entities and the user id (spec
section 6). -/
structure PersistCall where
  intent : Intent
  entities : EntitySet
  userId : String
deriving DecidableEq, Repr

/-- Modelled from the spec: the persistence collaborator returns either the
persisted entity reference or an error (spec section 6). -/
inductive PersistResult
  | ok (entityRef : String)
  | err (message : String)
deriving DecidableEq, Repr

/-- ASCII lowercasing of a character list (utterance matching is
case-insensitive). -/
def lowChars (s : String) : List Char := s.data.map Char.toLower

/-- Whether the second list is an initial segment of the first. -/
def leadMatch : List Char → List Char → Bool
  | _, [] => true
  | [], _ :: _ => false
  | a :: as, b :: bs => a == b && leadMatch as bs

/-- Whether `pat` occurs as a contiguous segment of `hay`. -/
def hasSub : List Char → List Char → Bool
  | [], pat => leadMatch [] pat
  | l@(_ :: rest), pat => leadMatch l pat || hasSub rest pat

/-- Case-insensitive keyword containment on an utterance. -/
def containsKW (text : String) (kw : String) : Bool :=
  hasSub (lowChars text) (lowChars kw)

/-- The suffix of `orig` after the first case-insensitive occurrence of
`pat`; `low` walks in step with `orig` and holds its lowercased form. -/
def afterMatch : List Char → List Char → List Char → Option (List Char)
  | oc :: orest, lc :: lrest, pat =>
    if leadMatch (lc :: lrest) pat = true then some ((oc :: orest).drop pat.length)
    else afterMatch orest lrest pat
  | _, _, _ => none

/-- Modelled from the spec: phrases at which a free-text slot value ends
(spec section 4.1, trigger phrases). -/
def stopMarks : List (List Char) :=
  [(" with ").data, (" due ").data, (" by ").data, (" to ").data, (" and ").data]

/-- The prefix of a character list before the first stop mark. -/
def cutAtStop : List Char → List Char
  | [] => []
  | c :: rest =>
    if stopMarks.any (fun sw => leadMatch (c :: rest) sw) then []
    else c :: cutAtStop rest

/-- Leading and trailing spaces removed. -/
def trimSpacesL (l : List Char) : List Char :=
  ((l.dropWhile (fun c => c == ' ')).reverse.dropWhile (fun c => c == ' ')).reverse

/-- A string from a character list. -/
def strOfChars (l : List Char) : String := ⟨l⟩

/-- Modelled from the spec: the free-text span following a trigger phrase,
trimmed and case-preserved (spec section 4.1). -/
def extractPhrase (text : String) (trigger : String) : Option String :=
  match afterMatch text.data (lowChars text) (lowChars trigger) with
  | some rest => some (strOfChars (trimSpacesL (cutAtStop rest)))
  | none => none

/-- Modelled from the spec: `extract(text, intentHint) -> EntitySet`, a pure
total pattern-rule extractor - priority keywords, status keywords, relative
dates and free-text spans after trigger phrases; missing slots are simply
absent (spec section 4.1). -/
def extract (text : String) (hint : Intent) : EntitySet :=
  let lower := lowChars text
  let prio : Option String :=
    if hasSub lower (("urgent").data) then some "urgent"
    else if hasSub lower (("high priority").data) then some "high"
    else if hasSub lower (("medium priority").data) then some "medium"
    else if hasSub lower (("low priority").data) then some "low"
    else none
  let stat : Option String :=
    if hasSub lower (("in progress").data) then some "in_progress"
    else if hasSub lower (("completed").data) then some "completed"
    else if hasSub lower (("cancelled").data) then some "cancelled"
    else if hasSub lower (("pending").data) then some "pending"
    else none
  let due : Option String :=
    if hasSub lower (("tomorrow").data) then some "tomorrow"
    else if hasSub lower (("today").data) then some "today"
    else if hasSub lower (("next week").data) then some "next week"
    else none
  let named : Option String := extractPhrase text "called "
  let isProject : Bool :=
    hint == Intent.CreateProject || hint == Intent.UpdateProject ||
    hint == Intent.QueryProjects
  let asg : Option String :=
    if hint == Intent.AssignTask then extractPhrase text " to " else none
  { task_name := if isProject then none else named,
    project_name := if isProject then named else extractPhrase text "for project ",
    due_date := due,
    priority := prio,
    assignee := asg,
    status := stat }

/-- Modelled from the spec: the extractor run as an operation over an
arbitrary ambient state; since the spec fixes `extract` as a pure function,
the operational form computes the EntitySet from its arguments alone and
returns the ambient state unchanged (spec section 4.1). -/
def extractRun (σ : Type) (st : σ) (text : String) (hint : Intent) :
    EntitySet × σ :=
  (extract text hint, st)

/-- Modelled from the spec: a pattern rule of the fallback intent
classifier - an intent with its keyword set (spec section 4.2). -/
structure IntentRule where
  intent : Intent
  keywords : List String

/-- Modelled from the spec: the keyword patterns of the closed intent set
(spec section 4.2). -/
def intentRules : List IntentRule :=
  [⟨Intent.CreateTask, ["create", "task"]⟩,
   ⟨Intent.CreateTask, ["add", "task"]⟩,
   ⟨Intent.CreateTask, ["new", "task"]⟩,
   ⟨Intent.UpdateTask, ["update", "task"]⟩,
   ⟨Intent.UpdateTask, ["change", "task"]⟩,
   ⟨Intent.CompleteTask, ["complete", "task"]⟩,
   ⟨Intent.CompleteTask, ["mark", "complete"]⟩,
   ⟨Intent.CompleteTask, ["finish", "task"]⟩,
   ⟨Intent.AssignTask, ["assign", "task"]⟩,
   ⟨Intent.CreateProject, ["create", "project"]⟩,
   ⟨Intent.CreateProject, ["new", "project"]⟩,
   ⟨Intent.UpdateProject, ["update", "project"]⟩,
   ⟨Intent.QueryTasks, ["show", "tasks"]⟩,
   ⟨Intent.QueryTasks, ["list", "tasks"]⟩,
   ⟨Intent.QueryProjects, ["show", "projects"]⟩,
   ⟨Intent.QueryProjects, ["list", "projects"]⟩,
   ⟨Intent.Navigate, ["go", "to"]⟩,
   ⟨Intent.Navigate, ["open"]⟩,
   ⟨Intent.Help, ["help"]⟩]

/-- Modelled from the spec: tie-break priority between candidate intents -
task mutation over task query over project mutation over project query over
navigation over help over unknown (spec section 4.2). -/
def intentPriority : Intent → Nat
  | Intent.CreateTask => 10
  | Intent.UpdateTask => 10
  | Intent.CompleteTask => 10
  | Intent.AssignTask => 10
  | Intent.QueryTasks => 8
  | Intent.CreateProject => 6
  | Intent.UpdateProject => 6
  | Intent.QueryProjects => 4
  | Intent.Navigate => 3
  | Intent.Help => 2
  | Intent.Unknown => 0

/-- A rule matches when every keyword occurs in the utterance. -/
def ruleMatches (text : String) (r : IntentRule) : Bool :=
  r.keywords.all (fun kw => containsKW text kw)

/-- The specificity of a rule: how many keywords it matched. -/
def ruleScore (r : IntentRule) : Nat := r.keywords.length

/-- The execute threshold 0.8 of the confidence gate, built directly so that
concrete comparisons evaluate. -/
def confExecute : ℚ := ⟨4, 5, by norm_num, by norm_num⟩

/-- The clarify threshold 0.6 of the confidence gate. -/
def confClarify : ℚ := ⟨3, 5, by norm_num, by norm_num⟩

/-- Confidence of a single-keyword match: 0.7. -/
def confSingle : ℚ := ⟨7, 10, by norm_num, by norm_num⟩

/-- Confidence of a two-keyword match: 0.85. -/
def confDouble : ℚ := ⟨17, 20, by norm_num, by norm_num⟩

/-- Confidence of a three-or-more-keyword match: 0.95. -/
def confTriple : ℚ := ⟨19, 20, by norm_num, by norm_num⟩

/-- Modelled from the spec: pattern-based confidence derives from how
specific the matched pattern is - a multi-keyword match scores higher than a
single-keyword match (spec section 4.2). -/
def confFromScore (k : Nat) : ℚ :=
  if 3 ≤ k then confTriple else if k = 2 then confDouble else confSingle

/-- The better of two candidate rules: higher specificity first, then
intent priority. -/
def pickRule (best : Option IntentRule) (r : IntentRule) : Option IntentRule :=
  match best with
  | none => some r
  | some b =>
    if ruleScore b < ruleScore r ∨
        (ruleScore r = ruleScore b ∧ intentPriority b.intent < intentPriority r.intent)
    then some r else some b

/-- Modelled from the spec: `classify(text) -> (Intent, confidence)` -
pattern-based fallback classification over the closed intent set;
unrecognized input yields Unknown with confidence 0 (spec section 4.2). -/
def classify (text : String) : ClassifiedIntent :=
  match (intentRules.filter (ruleMatches text)).foldl pickRule none with
  | some r => ⟨r.intent, confFromScore (ruleScore r)⟩
  | none => ⟨Intent.Unknown, 0⟩

/-- Modelled from the spec: the named slots of the required-slot table and
the clarifying-question priority order (spec section 4.4). -/
inductive Slot
  | task_name
  | project_name
  | due_date
  | priority
  | assignee
  | status
deriving DecidableEq, Repr

/-- The human-readable name of a slot, used in clarifying questions. -/
def slotQuestionName : Slot → String
  | Slot.task_name => "task name"
  | Slot.project_name => "project name"
  | Slot.due_date => "due date"
  | Slot.priority => "priority"
  | Slot.assignee => "assignee"
  | Slot.status => "status"

/-- Modelled from the spec: the authoritative required-slot table -
CreateTask, UpdateTask, CompleteTask and AssignTask need task_name (plus a
target value for Update, plus the assignee for Assign); CreateProject and
UpdateProject need project_name; queries need no required slots (spec
section 4.4, step 4). -/
def requiredSlotsPresent : Intent → EntitySet → Bool
  | Intent.CreateTask, e => e.task_name.isSome
  | Intent.UpdateTask, e =>
    e.task_name.isSome && (e.status.isSome || e.priority.isSome || e.due_date.isSome)
  | Intent.CompleteTask, e => e.task_name.isSome
  | Intent.AssignTask, e => e.task_name.isSome && e.assignee.isSome
  | Intent.CreateProject, e => e.project_name.isSome
  | Intent.UpdateProject, e => e.project_name.isSome
  | Intent.QueryTasks, _ => true
  | Intent.QueryProjects, _ => true
  | Intent.Navigate, _ => true
  | Intent.Help, _ => true
  | Intent.Unknown, _ => false

/-- Modelled from the spec: the intents of the required-slot table, i.e. the
intents whose execution calls the external persistence collaborator (spec
section 4.4, steps 4 and 5); Navigate and Help are local and Unknown never
executes. -/
def tableIntent : Intent → Bool
  | Intent.CreateTask => true
  | Intent.UpdateTask => true
  | Intent.CompleteTask => true
  | Intent.AssignTask => true
  | Intent.CreateProject => true
  | Intent.UpdateProject => true
  | Intent.QueryTasks => true
  | Intent.QueryProjects => true
  | Intent.Navigate => false
  | Intent.Help => false
  | Intent.Unknown => false

/-- Modelled from the spec: the single most important missing slot, in the
priority order task_name/project_name, then due_date, then assignee, then
priority (spec section 4.4, step 3). -/
def mostImportantMissing : Intent → EntitySet → Option Slot
  | Intent.CreateTask, e =>
    if e.task_name.isNone then some Slot.task_name else none
  | Intent.CompleteTask, e =>
    if e.task_name.isNone then some Slot.task_name else none
  | Intent.UpdateTask, e =>
    if e.task_name.isNone then some Slot.task_name
    else if e.status.isNone && e.priority.isNone && e.due_date.isNone
    then some Slot.due_date else none
  | Intent.AssignTask, e =>
    if e.task_name.isNone then some Slot.task_name
    else if e.assignee.isNone then some Slot.assignee else none
  | Intent.CreateProject, e =>
    if e.project_name.isNone then some Slot.project_name else none
  | Intent.UpdateProject, e =>
    if e.project_name.isNone then some Slot.project_name else none
  | _, _ => none

/-- Writing one slot of an EntitySet. -/
def fillSlot (e : EntitySet) (s : Slot) (v : String) : EntitySet :=
  match s with
  | Slot.task_name => { e with task_name := some v }
  | Slot.project_name => { e with project_name := some v }
  | Slot.due_date => { e with due_date := some v }
  | Slot.priority => { e with priority := some v }
  | Slot.assignee => { e with assignee := some v }
  | Slot.status => { e with status := some v }

/-- How many slots of an EntitySet are filled. -/
def entityCount (e : EntitySet) : Nat :=
  (if e.task_name.isSome then 1 else 0) +
  (if e.project_name.isSome then 1 else 0) +
  (if e.due_date.isSome then 1 else 0) +
  (if e.priority.isSome then 1 else 0) +
  (if e.assignee.isSome then 1 else 0) +
  (if e.status.isSome then 1 else 0)

/-- Modelled from the spec: appending newly extracted entities to a
context's EntitySet - already-filled slots are kept, absent slots are filled
(spec section 4.4, step 1). -/
def mergeEntities (old fresh : EntitySet) : EntitySet :=
  { task_name := old.task_name <|> fresh.task_name,
    project_name := old.project_name <|> fresh.project_name,
    due_date := old.due_date <|> fresh.due_date,
    priority := old.priority <|> fresh.priority,
    assignee := old.assignee <|> fresh.assignee,
    status := old.status <|> fresh.status }

/-- Modelled from the spec: in the multi-turn path a follow-up utterance in
which no slot pattern was recognized fills the next missing slot of the
pending intent with its whole (trimmed) text (spec section 4.4, step 1 and
the multi-turn convergence property of section 8). -/
def fillNextMissing (i : Intent) (e : EntitySet) (text : String) : EntitySet :=
  match mostImportantMissing i e with
  | some s => fillSlot e s (strOfChars (trimSpacesL text.data))
  | none => e

/-- Modelled from the spec: an explicit cancel utterance - "cancel" or
"never mind" (spec sections 4.4 and 5). -/
def isCancel (text : String) : Bool :=
  let t := trimSpacesL (lowChars text)
  t == (("cancel").data) || t == (("never mind").data) || t == (("nevermind").data)

/-- Modelled from the spec: the generic low-confidence response with
suggested example commands (spec section 4.4, step 3). -/
def notUnderstoodResponse : String :=
  "Sorry, I did not understand that. Try commands like: create a task called buy milk, show my tasks, complete task called report."

/-- Modelled from the spec: the response inviting a retry after a failed
persistence call (spec section 4.4, step 6). -/
def retryResponse : String :=
  "Something went wrong while executing that action. Please try again."

/-- Modelled from the spec: the neutral acknowledgement of an explicit
cancellation (spec section 5). -/
def cancelResponse : String := "Okay, cancelled."

/-- The response of a successful execution. -/
def executedResponse : String := "Done."

/-- Modelled from the spec: the clarifying question naming the single most
important missing slot, or a confirmation question when nothing is missing
(spec section 4.4, step 3). -/
def clarifyResponse (s : Option Slot) : String :=
  match s with
  | some sl => "What " ++ slotQuestionName sl ++ " should I use?"
  | none => "Should I go ahead with that?"

/-- Modelled from the spec: executing an intent - the external CRUD
operation is called exactly once and awaited; on success or failure the
user's context is cleared; Navigate/Help execute locally without a
persistence call (spec section 4.4, steps 5-7). -/
def executeIntent (persist : PersistCall → PersistResult) (store : ContextStore)
    (userId : String) (ci : ClassifiedIntent) (e : EntitySet) :
    ActionResult × ContextStore × List PersistCall :=
  if tableIntent ci.intent = true then
    match persist ⟨ci.intent, e, userId⟩ with
    | PersistResult.ok entityRef =>
      (⟨true, executedResponse, some entityRef, none⟩,
        clearContext store userId, [⟨ci.intent, e, userId⟩])
    | PersistResult.err _ =>
      (⟨false, retryResponse, none, some VoiceError.ActionExecutionError⟩,
        clearContext store userId, [⟨ci.intent, e, userId⟩])
  else
    (⟨true, executedResponse, none, none⟩, clearContext store userId, [])

/-- Modelled from the spec: the confidence gate, applied after slot-filling:
confidence >= 0.8 with all required slots present executes immediately;
confidence >= 0.6 (or required slots missing) stores the context and asks a
clarifying question; below 0.6 nothing is stored and a generic
"did not understand" response with examples is returned (spec section 4.4,
step 3). -/
def gate (persist : PersistCall → PersistResult) (store : ContextStore)
    (userId : String) (now : Nat) (ci : ClassifiedIntent) (e : EntitySet)
    (turns : Nat) : ActionResult × ContextStore × List PersistCall :=
  if confExecute ≤ ci.confidence ∧ requiredSlotsPresent ci.intent e = true then
    executeIntent persist store userId ci e
  else if confClarify ≤ ci.confidence then
    (⟨false, clarifyResponse (mostImportantMissing ci.intent e), none, none⟩,
      setContext store userId ⟨ci, e, now, turns⟩, [])
  else
    (⟨false, notUnderstoodResponse, none, some VoiceError.ClassificationLowConfidence⟩,
      store, [])

/-- Modelled from the spec: the EntitySet of a multi-turn step - extracted
entities are appended to the context's EntitySet, and a follow-up utterance
in which no slot pattern was recognized fills the next missing slot with its
whole text (spec section 4.4, step 1). -/
def multiturnEntities (ctx : ConversationContext) (u : Utterance) : EntitySet :=
  let extracted := extract u.text ctx.pending.intent
  let merged := mergeEntities ctx.entities extracted
  if entityCount extracted = 0
  then fillNextMissing ctx.pending.intent merged u.text
  else merged

/-- Modelled from the spec: `dispatch(utterance, userId) -> ActionResult` -
with an unexpired context the new utterance fills slots of the pending
intent (or cancels); otherwise the utterance is classified fresh; then the
confidence gate decides (spec section 4.4).  The result carries the updated
store and the list of persistence calls made, so that call-counting
properties are statable. -/
def dispatch (cfg : DispatchConfig) (persist : PersistCall → PersistResult)
    (store : ContextStore) (userId : String) (u : Utterance) (now : Nat) :
    ActionResult × ContextStore × List PersistCall :=
  match getContext cfg store userId now with
  | some ctx =>
    if isCancel u.text = true then
      (⟨true, cancelResponse, none, none⟩, clearContext store userId, [])
    else
      gate persist store userId now ctx.pending (multiturnEntities ctx u)
        (ctx.turnCount + 1)
  | none =>
    let ci := classify u.text
    gate persist store userId now ci (extract u.text ci.intent) 1

/-- The store left by one dispatch call. -/
def dispatchStep (cfg : DispatchConfig) (persist : PersistCall → PersistResult)
    (store : ContextStore) (inp : String × Utterance × Nat) : ContextStore :=
  (dispatch cfg persist store inp.1 inp.2.1 inp.2.2).2.1

/-- The store reached from the empty store by a script of dispatch calls. -/
def runDispatch (cfg : DispatchConfig) (persist : PersistCall → PersistResult)
    (script : List (String × Utterance × Nat)) : ContextStore :=
  script.foldl (dispatchStep cfg persist) []

/-- The store invariant of claim C4: at most one context entry per user. -/
def storeWellFormed (store : ContextStore) : Prop :=
  (store.map Prod.fst).Nodup

/-- Example configuration: a 300-second inactivity window, at most 5
turns. -/
def cfgEx : DispatchConfig := ⟨300, 5⟩

/-- Example persistence collaborator that always succeeds. -/
def persistOkEx : PersistCall → PersistResult :=
  fun _ => PersistResult.ok "entity-1"

/-- Example persistence collaborator that always fails. -/
def persistFailEx : PersistCall → PersistResult :=
  fun _ => PersistResult.err "boom"

/-- Example high-confidence complete utterance. -/
def uttCreateEx : Utterance := ⟨"create task called buy milk", confDouble, 0, "s1"⟩

/-- Example utterance matching no pattern. -/
def uttLowEx : Utterance := ⟨"foo bar qux", 0, 0, "s2"⟩

/-- Example cancel utterance. -/
def uttCancelEx : Utterance := ⟨"never mind", 0, 0, "s3"⟩

/-- Example high-confidence utterance for the failing-persistence case. -/
def uttFailEx : Utterance := ⟨"create task called pay rent", confDouble, 0, "s4"⟩

/-- An empty EntitySet. -/
def emptyEntities : EntitySet := ⟨none, none, none, none, none, none⟩

/-- Example pending (unexpired at time 150) context awaiting a task name. -/
def ctxPendingEx : ConversationContext :=
  ⟨⟨Intent.CreateTask, confDouble⟩, emptyEntities, 100, 1⟩

/-- Example store holding the pending context of user-1. -/
def storePendingEx : ContextStore := [("user-1", ctxPendingEx)]

/-- Example context that is expired at time 400. -/
def ctxExpiredEx : ConversationContext :=
  ⟨⟨Intent.CreateTask, confDouble⟩, emptyEntities, 0, 1⟩

/-- Example store holding the expired context of user-1. -/
def storeExpiredEx : ContextStore := [("user-1", ctxExpiredEx)]

end VoiceDispatcher

/-! ## Theorems -/

namespace VoiceUtils

/-- Claim C8: the confidence scale is partitioned at 0.8 and 0.6 into three
bands, and the embedded `getConfidenceColor` returns `'text-green-600'` iff
`c ≥ 0.8`, `'text-yellow-600'` iff `0.6 ≤ c < 0.8`, and `'text-red-600'` iff
`c < 0.6`. -/
theorem getConfidenceColor_bands (c : ℚ) :
    (getConfidenceColor c = "text-green-600" ↔ 4 / 5 ≤ c) ∧
    (getConfidenceColor c = "text-yellow-600" ↔ 3 / 5 ≤ c ∧ c < 4 / 5) ∧
    (getConfidenceColor c = "text-red-600" ↔ c < 3 / 5) := by
  unfold getConfidenceColor
  split_ifs with h1 h2
  · exact ⟨⟨fun _ => h1, fun _ => rfl⟩,
      ⟨fun h => absurd h (by decide), fun h => absurd h1 (not_le.mpr h.2)⟩,
      ⟨fun h => absurd h (by decide),
        fun h => absurd h1 (not_le.mpr (lt_trans h (by norm_num)))⟩⟩
  · exact ⟨⟨fun h => absurd h (by decide), fun h => absurd h h1⟩,
      ⟨fun _ => ⟨h2, not_le.mp h1⟩, fun _ => rfl⟩,
      ⟨fun h => absurd h (by decide), fun h => absurd h2 (not_le.mpr h)⟩⟩
  · exact ⟨⟨fun h => absurd h (by decide), fun h => absurd h h1⟩,
      ⟨fun h => absurd h (by decide), fun h => absurd h.1 h2⟩,
      ⟨fun _ => not_le.mp h2, fun _ => rfl⟩⟩

/-- Claim C9: `truncateText` returns `text` unchanged when
`text.length ≤ maxLength`, and otherwise returns the first `maxLength` code
units of `text` followed by `'...'`, of total length `maxLength + 3`, with
the prefix of `text` preserved. -/
theorem truncateText_spec (text : List Nat) (maxLength : Nat) :
    (text.length ≤ maxLength → truncateText text maxLength = text) ∧
    (maxLength < text.length →
      truncateText text maxLength = text.take maxLength ++ [46, 46, 46] ∧
      (truncateText text maxLength).length = maxLength + 3 ∧
      (truncateText text maxLength).take maxLength = text.take maxLength) := by
  constructor
  · intro h
    unfold truncateText
    rw [if_pos h]
  · intro h
    have hlen : (text.take maxLength).length = maxLength :=
      List.length_take_of_le (le_of_lt h)
    have heq : truncateText text maxLength = text.take maxLength ++ [46, 46, 46] := by
      unfold truncateText
      rw [if_neg (not_le.mpr h)]
    refine ⟨heq, ?_, ?_⟩
    · rw [heq, List.length_append, hlen]
      rfl
    · rw [heq, List.take_left' hlen]

/-- Witness for C9 at a concrete input: truncating `"hello"` (code units) to
length 3 yields `"hel..."`. -/
theorem truncateText_spec_witness :
    truncateText [104, 101, 108, 108, 111] 3 = [104, 101, 108, 46, 46, 46] :=
  ((truncateText_spec [104, 101, 108, 108, 111] 3).2 (by decide)).1

theorem dropWhile_head?_not {α : Type} (p : α → Bool) (l : List α) (c : α)
    (h : (l.dropWhile p).head? = some c) : p c = false := by
  induction l with
  | nil => simp [List.dropWhile_nil] at h
  | cons a t ih =>
    rw [List.dropWhile_cons] at h
    by_cases hp : p a = true
    · rw [if_pos hp] at h
      exact ih h
    · rw [if_neg hp] at h
      simp only [List.head?_cons, Option.some.injEq] at h
      subst h
      simpa using hp

theorem dropWhile_eq_self_of_head? {α : Type} (p : α → Bool) (l : List α)
    (h : ∀ c, l.head? = some c → p c = false) : l.dropWhile p = l := by
  cases l with
  | nil => rfl
  | cons a t => rw [List.dropWhile_cons, if_neg (by simp [h a rfl])]

theorem mem_of_mem_dropWhile {α : Type} (p : α → Bool) (l : List α) (c : α)
    (h : c ∈ l.dropWhile p) : c ∈ l :=
  (List.dropWhile_sublist p).subset h

theorem noDoubleHyphen_tail (a : Nat) (t : List Nat)
    (h : noDoubleHyphen (a :: t) = true) : noDoubleHyphen t = true := by
  cases t with
  | nil => rfl
  | cons b r =>
    simp only [noDoubleHyphen, Bool.and_eq_true] at h
    exact h.2

theorem noDoubleHyphen_cons (a : Nat) (t : List Nat)
    (hpair : ∀ b, t.head? = some b → (a == hyphenCode && b == hyphenCode) = false)
    (ht : noDoubleHyphen t = true) : noDoubleHyphen (a :: t) = true := by
  cases t with
  | nil => rfl
  | cons b r =>
    simp only [noDoubleHyphen, Bool.and_eq_true]
    refine ⟨?_, ht⟩
    rw [hpair b rfl]
    rfl

theorem noDoubleHyphen_dropWhile (p : Nat → Bool) (l : List Nat)
    (h : noDoubleHyphen l = true) : noDoubleHyphen (l.dropWhile p) = true := by
  induction l with
  | nil =>
    rw [List.dropWhile_nil]
    exact h
  | cons a t ih =>
    rw [List.dropWhile_cons]
    by_cases hp : p a = true
    · rw [if_pos hp]
      exact ih (noDoubleHyphen_tail a t h)
    · rw [if_neg hp]
      exact h

theorem mem_dropTrailingHyphens (l : List Nat) (c : Nat)
    (h : c ∈ dropTrailingHyphens l) : c ∈ l := by
  induction l with
  | nil => simp [dropTrailingHyphens] at h
  | cons a t ih =>
    cases hd : dropTrailingHyphens t with
    | nil =>
      simp only [dropTrailingHyphens, hd] at h
      by_cases ha : (a == hyphenCode) = true
      · rw [if_pos ha] at h
        cases h
      · rw [if_neg ha] at h
        simp only [List.mem_singleton] at h
        exact List.mem_cons.mpr (Or.inl h)
    | cons b r =>
      simp only [dropTrailingHyphens, hd] at h
      rcases List.mem_cons.mp h with h1 | h2
      · exact List.mem_cons.mpr (Or.inl h1)
      · exact List.mem_cons_of_mem a (ih (hd ▸ h2))

theorem head?_dropTrailingHyphens (a : Nat) (t : List Nat) :
    dropTrailingHyphens (a :: t) = [] ∨
    (dropTrailingHyphens (a :: t)).head? = some a := by
  cases hd : dropTrailingHyphens t with
  | nil =>
    by_cases ha : (a == hyphenCode) = true
    · left
      simp [dropTrailingHyphens, hd, ha]
    · right
      simp [dropTrailingHyphens, hd, ha]
  | cons b r =>
    right
    simp [dropTrailingHyphens, hd]

theorem getLast?_dropTrailingHyphens (l : List Nat) (c : Nat)
    (h : (dropTrailingHyphens l).getLast? = some c) : (c == hyphenCode) = false := by
  induction l with
  | nil => simp [dropTrailingHyphens] at h
  | cons a t ih =>
    cases hd : dropTrailingHyphens t with
    | nil =>
      simp only [dropTrailingHyphens, hd] at h
      by_cases ha : (a == hyphenCode) = true
      · rw [if_pos ha] at h
        simp at h
      · rw [if_neg ha] at h
        simp only [List.getLast?_singleton, Option.some.injEq] at h
        subst h
        simpa using ha
    | cons b r =>
      simp only [dropTrailingHyphens, hd] at h
      rw [List.getLast?_cons_cons] at h
      exact ih (hd ▸ h)

theorem noDoubleHyphen_dropTrailingHyphens (l : List Nat)
    (h : noDoubleHyphen l = true) :
    noDoubleHyphen (dropTrailingHyphens l) = true := by
  induction l with
  | nil => simpa [dropTrailingHyphens] using h
  | cons a t ih =>
    cases hd : dropTrailingHyphens t with
    | nil =>
      simp only [dropTrailingHyphens, hd]
      by_cases ha : (a == hyphenCode) = true
      · rw [if_pos ha]
        rfl
      · rw [if_neg ha]
        rfl
    | cons b r =>
      simp only [dropTrailingHyphens, hd]
      have ht : noDoubleHyphen (b :: r) = true :=
        hd ▸ ih (noDoubleHyphen_tail a t h)
      refine noDoubleHyphen_cons a (b :: r) ?_ ht
      intro b' hb'
      simp only [List.head?_cons, Option.some.injEq] at hb'
      rw [← hb']
      cases t with
      | nil => simp [dropTrailingHyphens] at hd
      | cons b2 t2 =>
        have hb2 : b2 = b := by
          rcases head?_dropTrailingHyphens b2 t2 with h0 | h0
          · rw [h0] at hd
            cases hd
          · rw [hd] at h0
            simp only [List.head?_cons, Option.some.injEq] at h0
            exact h0.symm
        rw [← hb2]
        simp only [noDoubleHyphen, Bool.and_eq_true] at h
        have h1 := h.1
        rw [Bool.not_eq_true'] at h1
        exact h1

theorem dropTrailingHyphens_cons_cons (a : Nat) (t : List Nat) (b : Nat) (r : List Nat)
    (hd : dropTrailingHyphens t = b :: r) :
    dropTrailingHyphens (a :: t) = a :: b :: r := by
  simp only [dropTrailingHyphens, hd]

theorem dropTrailingHyphens_eq_self (l : List Nat)
    (h : ∀ c, l.getLast? = some c → (c == hyphenCode) = false) :
    dropTrailingHyphens l = l := by
  induction l with
  | nil => rfl
  | cons a t ih =>
    cases t with
    | nil =>
      have ha := h a (by simp)
      simp [dropTrailingHyphens, ha]
    | cons b r =>
      have ht : dropTrailingHyphens (b :: r) = b :: r := by
        refine ih ?_
        intro c hc
        exact h c (by rw [List.getLast?_cons_cons]; exact hc)
      exact dropTrailingHyphens_cons_cons a (b :: r) b r ht

theorem mem_collapseSeps (l : List Nat) (c : Nat) (h : c ∈ collapseSeps l) :
    c = hyphenCode ∨ (c ∈ l ∧ sepCode c = false) := by
  induction l using collapseSeps.induct with
  | case1 => simp [collapseSeps] at h
  | case2 a cs hsep ih =>
    rw [collapseSeps, if_pos hsep] at h
    rcases List.mem_cons.mp h with h1 | h2
    · exact Or.inl h1
    · rcases ih h2 with h3 | ⟨h4, h5⟩
      · exact Or.inl h3
      · exact Or.inr
          ⟨List.mem_cons_of_mem a ((List.dropWhile_sublist sepCode).subset h4), h5⟩
  | case3 a cs hsep ih =>
    rw [collapseSeps, if_neg hsep] at h
    rcases List.mem_cons.mp h with h1 | h2
    · subst h1
      exact Or.inr ⟨List.mem_cons_self _ _, by simpa using hsep⟩
    · rcases ih h2 with h3 | ⟨h4, h5⟩
      · exact Or.inl h3
      · exact Or.inr ⟨List.mem_cons_of_mem a h4, h5⟩

theorem head?_collapseSeps (l : List Nat) (c : Nat)
    (h : (collapseSeps l).head? = some c) :
    (sepCode c = false ∧ l.head? = some c) ∨
    (c = hyphenCode ∧ ∃ d, l.head? = some d ∧ sepCode d = true) := by
  cases l with
  | nil => simp [collapseSeps] at h
  | cons a cs =>
    by_cases hsep : sepCode a = true
    · rw [collapseSeps, if_pos hsep] at h
      simp only [List.head?_cons, Option.some.injEq] at h
      exact Or.inr ⟨h.symm, a, rfl, hsep⟩
    · rw [collapseSeps, if_neg hsep] at h
      simp only [List.head?_cons, Option.some.injEq] at h
      subst h
      exact Or.inl ⟨by simpa using hsep, rfl⟩

theorem noDoubleHyphen_collapseSeps (l : List Nat) :
    noDoubleHyphen (collapseSeps l) = true := by
  induction l using collapseSeps.induct with
  | case1 => simp [collapseSeps]; rfl
  | case2 a cs hsep ih =>
    rw [collapseSeps, if_pos hsep]
    refine noDoubleHyphen_cons hyphenCode _ ?_ ih
    intro b hb
    rcases head?_collapseSeps _ b hb with ⟨hbs, -⟩ | ⟨hbh, d, hd, hds⟩
    · have hbh : (b == hyphenCode) = false := by
        simp only [sepCode, Bool.or_eq_false_iff] at hbs
        exact hbs.2
      rw [hbh, Bool.and_false]
    · exact absurd (dropWhile_head?_not sepCode cs d hd) (by simp [hds])
  | case3 a cs hsep ih =>
    rw [collapseSeps, if_neg hsep]
    refine noDoubleHyphen_cons a _ ?_ ih
    intro b hb
    have hsf : sepCode a = false := by
      simp only [Bool.not_eq_true] at hsep
      exact hsep
    have ha : (a == hyphenCode) = false := by
      simp only [sepCode, Bool.or_eq_false_iff] at hsf
      exact hsf.2
    rw [ha, Bool.false_and]

theorem collapseSeps_eq_self (l : List Nat)
    (hsep : ∀ c ∈ l, sepCode c = true → c = hyphenCode)
    (hnd : noDoubleHyphen l = true) : collapseSeps l = l := by
  induction l using collapseSeps.induct with
  | case1 => simp [collapseSeps]
  | case2 a cs hs ih =>
    have ha : a = hyphenCode := hsep a (List.mem_cons_self _ _) hs
    have hdw : cs.dropWhile sepCode = cs := by
      cases cs with
      | nil => rfl
      | cons b r =>
        rw [List.dropWhile_cons, if_neg]
        intro hb
        have hbh : b = hyphenCode :=
          hsep b (List.mem_cons_of_mem a (List.mem_cons_self _ _)) hb
        subst ha
        subst hbh
        simp only [noDoubleHyphen, Bool.and_eq_true] at hnd
        have := hnd.1
        rw [Bool.not_eq_true'] at this
        simp at this
    rw [collapseSeps, if_pos hs, hdw, ← ha]
    rw [hdw] at ih
    rw [ih (fun c hc hcs => hsep c (List.mem_cons_of_mem a hc) hcs)
      (noDoubleHyphen_tail a cs hnd)]
  | case3 a cs hs ih =>
    rw [collapseSeps, if_neg hs]
    rw [ih (fun c hc hcs => hsep c (List.mem_cons_of_mem a hc) hcs)
      (noDoubleHyphen_tail a cs hnd)]

theorem mem_jsLower_not_upper (d c : Nat) (h : c ∈ jsLower d) :
    ¬(65 ≤ c ∧ c ≤ 90) := by
  unfold jsLower at h
  split_ifs at h with h1 h2 h3 <;> simp only [List.mem_cons, List.mem_singleton,
    List.not_mem_nil, or_false] at h <;> omega

theorem slugChar_of_keep (c : Nat) (hk : keepCode c = true) (hs : sepCode c = false)
    (hu : ¬(65 ≤ c ∧ c ≤ 90)) : slugChar c = true := by
  simp only [keepCode, jsWordCode, jsSpace, hyphenCode, Bool.or_eq_true,
    decide_eq_true_eq, beq_iff_eq] at hk
  simp only [sepCode, jsSpace, hyphenCode, Bool.or_eq_true, decide_eq_true_eq,
    beq_iff_eq, Bool.or_eq_false_iff, decide_eq_false_iff_not, beq_eq_false_iff_ne,
    ne_eq] at hs
  simp only [slugChar, hyphenCode, Bool.or_eq_true, decide_eq_true_eq, beq_iff_eq]
  omega

theorem sepCode_hyphen_of_slugChar (c : Nat) (h : slugChar c = true)
    (hs : sepCode c = true) : c = hyphenCode := by
  simp only [slugChar, hyphenCode, Bool.or_eq_true, decide_eq_true_eq,
    beq_iff_eq] at h
  simp only [sepCode, jsSpace, hyphenCode, Bool.or_eq_true, decide_eq_true_eq,
    beq_iff_eq] at hs
  simp only [hyphenCode]
  omega

theorem jsLower_eq_self_of_slugChar (c : Nat) (h : slugChar c = true) :
    jsLower c = [c] := by
  simp only [slugChar, hyphenCode, Bool.or_eq_true, decide_eq_true_eq,
    beq_iff_eq] at h
  unfold jsLower
  rw [if_neg (by omega), if_neg (by omega), if_neg (by omega)]

theorem keepCode_of_slugChar (c : Nat) (h : slugChar c = true) :
    keepCode c = true := by
  simp only [slugChar, hyphenCode, Bool.or_eq_true, decide_eq_true_eq,
    beq_iff_eq] at h
  simp only [keepCode, jsWordCode, jsSpace, hyphenCode, Bool.or_eq_true,
    decide_eq_true_eq, beq_iff_eq]
  omega

theorem flatMap_jsLower_eq_self (l : List Nat) (h : ∀ c ∈ l, slugChar c = true) :
    l.flatMap jsLower = l := by
  induction l with
  | nil => rfl
  | cons a t ih =>
    rw [List.flatMap_cons, jsLower_eq_self_of_slugChar a (h a (List.mem_cons_self _ _)),
      ih (fun c hc => h c (List.mem_cons_of_mem a hc))]
    rfl

theorem filter_keepCode_eq_self (l : List Nat) (h : ∀ c ∈ l, slugChar c = true) :
    l.filter keepCode = l :=
  List.filter_eq_self.mpr (fun a ha => keepCode_of_slugChar a (h a ha))

theorem slugChar_mem_slugify (s : List Nat) :
    ∀ c ∈ slugify s, slugChar c = true := by
  intro c hc
  unfold slugify trimHyphens at hc
  have hc2 : c ∈ collapseSeps ((s.flatMap jsLower).filter keepCode) :=
    mem_of_mem_dropWhile _ _ c (mem_dropTrailingHyphens _ c hc)
  rcases mem_collapseSeps _ c hc2 with h1 | ⟨h2, h3⟩
  · rw [h1]
    decide
  · have hk : keepCode c = true := (List.mem_filter.mp h2).2
    have hmem : c ∈ s.flatMap jsLower := (List.mem_filter.mp h2).1
    obtain ⟨d, -, hcd⟩ := List.mem_flatMap.mp hmem
    exact slugChar_of_keep _ hk h3 (mem_jsLower_not_upper d c hcd)

theorem head?_slugify (s : List Nat) (c : Nat)
    (h : (slugify s).head? = some c) : (c == hyphenCode) = false := by
  unfold slugify trimHyphens at h
  cases hl : (collapseSeps ((s.flatMap jsLower).filter keepCode)).dropWhile
      (fun c => c == hyphenCode) with
  | nil =>
    rw [hl] at h
    simp [dropTrailingHyphens] at h
  | cons a t =>
    rw [hl] at h
    rcases head?_dropTrailingHyphens a t with h0 | h0
    · rw [h0] at h
      simp at h
    · rw [h0] at h
      simp only [Option.some.injEq] at h
      rw [← h]
      exact dropWhile_head?_not _ _ a (by rw [hl]; rfl)

theorem getLast?_slugify (s : List Nat) (c : Nat)
    (h : (slugify s).getLast? = some c) : (c == hyphenCode) = false :=
  getLast?_dropTrailingHyphens _ c h

theorem noDoubleHyphen_slugify (s : List Nat) :
    noDoubleHyphen (slugify s) = true :=
  noDoubleHyphen_dropTrailingHyphens _
    (noDoubleHyphen_dropWhile _ _ (noDoubleHyphen_collapseSeps _))

theorem goodSlug_slugify (s : List Nat) : goodSlug (slugify s) = true := by
  unfold goodSlug
  simp only [Bool.and_eq_true]
  refine ⟨⟨⟨?_, noDoubleHyphen_slugify s⟩, ?_⟩, ?_⟩
  · exact List.all_eq_true.mpr (fun c hc => slugChar_mem_slugify s c hc)
  · cases hh : (slugify s).head? with
    | none => rfl
    | some c =>
      show (!(c == hyphenCode)) = true
      rw [head?_slugify s c hh]
      rfl
  · cases hh : (slugify s).getLast? with
    | none => rfl
    | some c =>
      show (!(c == hyphenCode)) = true
      rw [getLast?_slugify s c hh]
      rfl

theorem slugify_eq_self (l : List Nat) (h : goodSlug l = true) : slugify l = l := by
  unfold goodSlug at h
  simp only [Bool.and_eq_true] at h
  obtain ⟨⟨⟨hall, hnd⟩, hhead⟩, hlast⟩ := h
  have hall' : ∀ c ∈ l, slugChar c = true := fun c hc =>
    List.all_eq_true.mp hall c hc
  have hhead' : ∀ c, l.head? = some c → (c == hyphenCode) = false := by
    intro c hc
    rw [hc] at hhead
    simpa using hhead
  have hlast' : ∀ c, l.getLast? = some c → (c == hyphenCode) = false := by
    intro c hc
    rw [hc] at hlast
    simpa using hlast
  unfold slugify
  rw [flatMap_jsLower_eq_self l hall', filter_keepCode_eq_self l hall',
    collapseSeps_eq_self l
      (fun c hc hcs => sepCode_hyphen_of_slugChar c (hall' c hc) hcs) hnd]
  unfold trimHyphens
  rw [dropWhile_eq_self_of_head? _ l hhead', dropTrailingHyphens_eq_self l hlast']

/-- Claim C10: `slugify` is idempotent, and every code unit of its output is
a lowercase ASCII letter, an ASCII digit or a hyphen, with no leading
hyphen, no trailing hyphen, and no two consecutive hyphens. -/
theorem slugify_idempotent_wellformed (s : List Nat) :
    slugify (slugify s) = slugify s ∧ goodSlug (slugify s) = true :=
  ⟨slugify_eq_self _ (goodSlug_slugify s), goodSlug_slugify s⟩

end VoiceUtils

namespace VoiceDispatcher

theorem lookup_cons_self {β : Type} (k : String) (v : β) (l : List (String × β)) :
    List.lookup k ((k, v) :: l) = some v := by
  simp [List.lookup_cons]

theorem lookup_cons_ne {β : Type} (a k : String) (v : β) (l : List (String × β))
    (h : a ≠ k) : List.lookup a ((k, v) :: l) = List.lookup a l := by
  have hb : (a == k) = false := beq_eq_false_iff_ne.mpr h
  simp [List.lookup_cons, hb]

theorem lookup_clearContext_self (store : ContextStore) (userId : String) :
    List.lookup userId (clearContext store userId) = none := by
  induction store with
  | nil => rfl
  | cons e t ih =>
    obtain ⟨k, v⟩ := e
    by_cases hk : (k == userId) = true
    · simp only [clearContext, List.filter_cons, hk, Bool.not_true,
        Bool.false_eq_true, if_false]
      exact ih
    · have hk' : (k == userId) = false := by simpa using hk
      simp only [clearContext, List.filter_cons, hk', Bool.not_false, if_true]
      have hne : userId ≠ k := by
        intro he
        subst he
        simp at hk'
      rw [lookup_cons_ne userId k v _ hne]
      exact ih

theorem lookup_clearContext_ne (store : ContextStore) (userId u' : String)
    (h : u' ≠ userId) :
    List.lookup u' (clearContext store userId) = List.lookup u' store := by
  induction store with
  | nil => rfl
  | cons e t ih =>
    obtain ⟨k, v⟩ := e
    by_cases hk : (k == userId) = true
    · have hkeq : k = userId := beq_iff_eq.mp hk
      have hstep : clearContext ((k, v) :: t) userId = clearContext t userId := by
        simp [clearContext, List.filter_cons, hk]
      rw [hstep, ih, lookup_cons_ne u' k v t (by rw [hkeq]; exact h)]
    · have hk' : (k == userId) = false := by simpa using hk
      have hstep : clearContext ((k, v) :: t) userId = (k, v) :: clearContext t userId := by
        simp [clearContext, List.filter_cons, hk']
      rw [hstep]
      by_cases hu : u' = k
      · subst hu
        rw [lookup_cons_self, lookup_cons_self]
      · rw [lookup_cons_ne u' k v _ hu, lookup_cons_ne u' k v t hu]
        exact ih

theorem lookup_setContext_self (store : ContextStore) (userId : String)
    (ctx : ConversationContext) :
    List.lookup userId (setContext store userId ctx) = some ctx :=
  lookup_cons_self userId ctx _

theorem lookup_setContext_ne (store : ContextStore) (userId u' : String)
    (ctx : ConversationContext) (h : u' ≠ userId) :
    List.lookup u' (setContext store userId ctx) = List.lookup u' store := by
  unfold setContext
  rw [lookup_cons_ne u' userId ctx _ h]
  exact lookup_clearContext_ne store userId u' h

theorem clearContext_idem (store : ContextStore) (userId : String) :
    clearContext (clearContext store userId) userId = clearContext store userId :=
  List.filter_eq_self.mpr (fun _ ha => (List.mem_filter.mp ha).2)

theorem setContext_clearContext (store : ContextStore) (userId : String)
    (ctx : ConversationContext) :
    setContext (clearContext store userId) userId ctx = setContext store userId ctx := by
  unfold setContext clearContext
  rw [List.filter_filter]
  simp

theorem storeWellFormed_clear (store : ContextStore) (userId : String)
    (h : storeWellFormed store) : storeWellFormed (clearContext store userId) :=
  List.Nodup.sublist ((List.filter_sublist store).map Prod.fst) h

theorem storeWellFormed_set (store : ContextStore) (userId : String)
    (ctx : ConversationContext) (h : storeWellFormed store) :
    storeWellFormed (setContext store userId ctx) := by
  unfold storeWellFormed setContext
  rw [List.map_cons, List.nodup_cons]
  constructor
  · intro hmem
    obtain ⟨⟨k, v⟩, hkv, hfst⟩ := List.mem_map.mp hmem
    have hk := (List.mem_filter.mp hkv).2
    simp only at hfst
    subst hfst
    simp at hk
  · exact storeWellFormed_clear store userId h


theorem executeIntent_store (persist : PersistCall → PersistResult)
    (store : ContextStore) (userId : String) (ci : ClassifiedIntent)
    (e : EntitySet) :
    (executeIntent persist store userId ci e).2.1 = clearContext store userId := by
  unfold executeIntent
  split_ifs with h
  · cases persist ⟨ci.intent, e, userId⟩ <;> rfl
  · rfl

theorem executeIntent_calls (persist : PersistCall → PersistResult)
    (store : ContextStore) (userId : String) (ci : ClassifiedIntent)
    (e : EntitySet) (h : tableIntent ci.intent = true) :
    (executeIntent persist store userId ci e).2.2 = [⟨ci.intent, e, userId⟩] := by
  unfold executeIntent
  rw [if_pos h]
  cases persist ⟨ci.intent, e, userId⟩ <;> rfl

theorem executeIntent_ok (persist : PersistCall → PersistResult)
    (store : ContextStore) (userId : String) (ci : ClassifiedIntent)
    (e : EntitySet) (h : tableIntent ci.intent = true) (r : String)
    (hp : persist ⟨ci.intent, e, userId⟩ = PersistResult.ok r) :
    (executeIntent persist store userId ci e).1 =
      ⟨true, executedResponse, some r, none⟩ := by
  unfold executeIntent
  rw [if_pos h, hp]

theorem executeIntent_err (persist : PersistCall → PersistResult)
    (store : ContextStore) (userId : String) (ci : ClassifiedIntent)
    (e : EntitySet) (h : tableIntent ci.intent = true) (m : String)
    (hp : persist ⟨ci.intent, e, userId⟩ = PersistResult.err m) :
    (executeIntent persist store userId ci e).1 =
      ⟨false, retryResponse, none, some VoiceError.ActionExecutionError⟩ := by
  unfold executeIntent
  rw [if_pos h, hp]

theorem executeIntent_result_store_independent
    (persist : PersistCall → PersistResult) (s₁ s₂ : ContextStore)
    (userId : String) (ci : ClassifiedIntent) (e : EntitySet) :
    (executeIntent persist s₁ userId ci e).1 =
      (executeIntent persist s₂ userId ci e).1 ∧
    (executeIntent persist s₁ userId ci e).2.2 =
      (executeIntent persist s₂ userId ci e).2.2 := by
  unfold executeIntent
  split_ifs with h
  · cases persist ⟨ci.intent, e, userId⟩ <;> exact ⟨rfl, rfl⟩
  · exact ⟨rfl, rfl⟩

theorem gate_execute (persist : PersistCall → PersistResult)
    (store : ContextStore) (userId : String) (now : Nat)
    (ci : ClassifiedIntent) (e : EntitySet) (turns : Nat)
    (h1 : confExecute ≤ ci.confidence)
    (h2 : requiredSlotsPresent ci.intent e = true) :
    gate persist store userId now ci e turns =
      executeIntent persist store userId ci e := by
  unfold gate
  rw [if_pos ⟨h1, h2⟩]

theorem gate_clarify (persist : PersistCall → PersistResult)
    (store : ContextStore) (userId : String) (now : Nat)
    (ci : ClassifiedIntent) (e : EntitySet) (turns : Nat)
    (h1 : ¬(confExecute ≤ ci.confidence ∧ requiredSlotsPresent ci.intent e = true))
    (h2 : confClarify ≤ ci.confidence) :
    gate persist store userId now ci e turns =
      (⟨false, clarifyResponse (mostImportantMissing ci.intent e), none, none⟩,
        setContext store userId ⟨ci, e, now, turns⟩, []) := by
  unfold gate
  rw [if_neg h1, if_pos h2]

theorem gate_low (persist : PersistCall → PersistResult)
    (store : ContextStore) (userId : String) (now : Nat)
    (ci : ClassifiedIntent) (e : EntitySet) (turns : Nat)
    (h : ci.confidence < confClarify) :
    gate persist store userId now ci e turns =
      (⟨false, notUnderstoodResponse, none,
          some VoiceError.ClassificationLowConfidence⟩, store, []) := by
  unfold gate
  have hlt : ci.confidence < confExecute := lt_trans h (by decide)
  rw [if_neg, if_neg (not_le.mpr h)]
  rintro ⟨hc, -⟩
  exact absurd hc (not_le.mpr hlt)

theorem dispatch_fresh (cfg : DispatchConfig) (persist : PersistCall → PersistResult)
    (store : ContextStore) (userId : String) (u : Utterance) (now : Nat)
    (hg : getContext cfg store userId now = none) :
    dispatch cfg persist store userId u now =
      gate persist store userId now (classify u.text)
        (extract u.text (classify u.text).intent) 1 := by
  unfold dispatch
  rw [hg]

theorem dispatch_ctx_cancel (cfg : DispatchConfig)
    (persist : PersistCall → PersistResult) (store : ContextStore)
    (userId : String) (u : Utterance) (now : Nat) (ctx : ConversationContext)
    (hg : getContext cfg store userId now = some ctx)
    (hc : isCancel u.text = true) :
    dispatch cfg persist store userId u now =
      (⟨true, cancelResponse, none, none⟩, clearContext store userId, []) := by
  unfold dispatch
  rw [hg]
  simp only [hc, if_true]

theorem dispatch_ctx_fill (cfg : DispatchConfig)
    (persist : PersistCall → PersistResult) (store : ContextStore)
    (userId : String) (u : Utterance) (now : Nat) (ctx : ConversationContext)
    (hg : getContext cfg store userId now = some ctx)
    (hc : isCancel u.text = false) :
    dispatch cfg persist store userId u now =
      gate persist store userId now ctx.pending (multiturnEntities ctx u)
        (ctx.turnCount + 1) := by
  unfold dispatch
  rw [hg]
  simp only [hc, Bool.false_eq_true, if_false]


/-- Claim C1: for every utterance classified with confidence at least 0.8
whose required slots are all present (per the required-slot table), a fresh
`dispatch` makes exactly one persistence call - awaited synchronously, never
retried - and, when that single call succeeds, returns an ActionResult with
`success = true`. -/
theorem dispatch_high_confidence_executes_once (cfg : DispatchConfig)
    (persist : PersistCall → PersistResult) (store : ContextStore)
    (userId : String) (u : Utterance) (now : Nat)
    (hfresh : getContext cfg store userId now = none)
    (htable : tableIntent (classify u.text).intent = true)
    (hconf : confExecute ≤ (classify u.text).confidence)
    (hslots : requiredSlotsPresent (classify u.text).intent
      (extract u.text (classify u.text).intent) = true) :
    (dispatch cfg persist store userId u now).2.2 =
      [⟨(classify u.text).intent,
        extract u.text (classify u.text).intent, userId⟩] ∧
    (∀ r, persist ⟨(classify u.text).intent,
        extract u.text (classify u.text).intent, userId⟩ = PersistResult.ok r →
      (dispatch cfg persist store userId u now).1.success = true) := by
  rw [dispatch_fresh cfg persist store userId u now hfresh,
    gate_execute persist store userId now (classify u.text)
      (extract u.text (classify u.text).intent) 1 hconf hslots]
  constructor
  · exact executeIntent_calls persist store userId (classify u.text)
      (extract u.text (classify u.text).intent) htable
  · intro r hr
    rw [executeIntent_ok persist store userId (classify u.text)
      (extract u.text (classify u.text).intent) htable r hr]

/-- Witness for C1: "create task called buy milk" classifies as CreateTask
with confidence 0.85 and a present task name, so dispatch against the empty
store with an always-succeeding collaborator makes exactly one call and
succeeds. -/
theorem dispatch_high_confidence_executes_once_witness :
    (dispatch cfgEx persistOkEx [] "user-1" uttCreateEx 0).2.2 =
      [⟨(classify uttCreateEx.text).intent,
        extract uttCreateEx.text (classify uttCreateEx.text).intent, "user-1"⟩] ∧
    (dispatch cfgEx persistOkEx [] "user-1" uttCreateEx 0).1.success = true :=
  ⟨(dispatch_high_confidence_executes_once cfgEx persistOkEx [] "user-1"
      uttCreateEx 0 (by decide) (by decide) (by decide) (by decide)).1,
   (dispatch_high_confidence_executes_once cfgEx persistOkEx [] "user-1"
      uttCreateEx 0 (by decide) (by decide) (by decide) (by decide)).2
     "entity-1" (by decide)⟩

/-- Claim C2: for every utterance classified below confidence 0.6 (with no
pending context for the user), `dispatch` leaves the context store literally
unchanged - no entry of any user is created or mutated - makes no
persistence call, and answers with the generic "did not understand" response
carrying suggested example commands. -/
theorem dispatch_low_confidence_frame (cfg : DispatchConfig)
    (persist : PersistCall → PersistResult) (store : ContextStore)
    (userId : String) (u : Utterance) (now : Nat)
    (hfresh : getContext cfg store userId now = none)
    (hlow : (classify u.text).confidence < confClarify) :
    (dispatch cfg persist store userId u now).2.1 = store ∧
    (dispatch cfg persist store userId u now).2.2 = [] ∧
    (dispatch cfg persist store userId u now).1 =
      ⟨false, notUnderstoodResponse, none,
        some VoiceError.ClassificationLowConfidence⟩ := by
  rw [dispatch_fresh cfg persist store userId u now hfresh,
    gate_low persist store userId now (classify u.text)
      (extract u.text (classify u.text).intent) 1 hlow]
  exact ⟨rfl, rfl, rfl⟩

/-- Witness for C2: "foo bar qux" matches no pattern (Unknown, confidence
0); dispatched for user-2 against a store holding user-1's pending context,
the store comes back identical and no call is made. -/
theorem dispatch_low_confidence_frame_witness :
    (dispatch cfgEx persistOkEx storePendingEx "user-2" uttLowEx 150).2.1 =
      storePendingEx ∧
    (dispatch cfgEx persistOkEx storePendingEx "user-2" uttLowEx 150).2.2 = [] :=
  ⟨(dispatch_low_confidence_frame cfgEx persistOkEx storePendingEx "user-2"
      uttLowEx 150 (by decide) (by decide)).1,
   (dispatch_low_confidence_frame cfgEx persistOkEx storePendingEx "user-2"
      uttLowEx 150 (by decide) (by decide)).2.1⟩

theorem gate_calls_fail (persist : PersistCall → PersistResult)
    (store : ContextStore) (userId : String) (now : Nat)
    (ci : ClassifiedIntent) (e : EntitySet) (turns : Nat)
    (c : PersistCall) (m : String)
    (hcalls : (gate persist store userId now ci e turns).2.2 = [c])
    (hfail : persist c = PersistResult.err m) :
    (gate persist store userId now ci e turns).1 =
      ⟨false, retryResponse, none, some VoiceError.ActionExecutionError⟩ ∧
    (gate persist store userId now ci e turns).2.1 =
      clearContext store userId := by
  unfold gate at hcalls ⊢
  by_cases h1 : confExecute ≤ ci.confidence ∧ requiredSlotsPresent ci.intent e = true
  · rw [if_pos h1] at hcalls ⊢
    unfold executeIntent at hcalls ⊢
    by_cases ht : tableIntent ci.intent = true
    · rw [if_pos ht] at hcalls ⊢
      rcases hp : persist ⟨ci.intent, e, userId⟩ with r | m2
      · rw [hp] at hcalls
        simp only [List.cons.injEq, and_true] at hcalls
        rw [← hcalls, hp] at hfail
        cases hfail
      · rw [hp] at hcalls
        exact ⟨rfl, rfl⟩
    · rw [if_neg ht] at hcalls
      simp at hcalls
  · rw [if_neg h1] at hcalls ⊢
    by_cases h2 : confClarify ≤ ci.confidence
    · rw [if_pos h2] at hcalls
      simp at hcalls
    · rw [if_neg h2] at hcalls
      simp at hcalls

/-- Claim C3: whenever the single persistence call made by `dispatch` fails,
the result is `success = false` with error `ActionExecutionError`, the
response invites a retry, and the user's stored context is cleared - no
pending multi-turn state remains. -/
theorem dispatch_persist_failure (cfg : DispatchConfig)
    (persist : PersistCall → PersistResult) (store : ContextStore)
    (userId : String) (u : Utterance) (now : Nat) (c : PersistCall) (m : String)
    (hcalls : (dispatch cfg persist store userId u now).2.2 = [c])
    (hfail : persist c = PersistResult.err m) :
    (dispatch cfg persist store userId u now).1 =
      ⟨false, retryResponse, none, some VoiceError.ActionExecutionError⟩ ∧
    List.lookup userId (dispatch cfg persist store userId u now).2.1 = none := by
  cases hg : getContext cfg store userId now with
  | none =>
    rw [dispatch_fresh cfg persist store userId u now hg] at hcalls ⊢
    have h := gate_calls_fail persist store userId now (classify u.text)
      (extract u.text (classify u.text).intent) 1 c m hcalls hfail
    refine ⟨h.1, ?_⟩
    rw [h.2]
    exact lookup_clearContext_self store userId
  | some ctx =>
    by_cases hc : isCancel u.text = true
    · rw [dispatch_ctx_cancel cfg persist store userId u now ctx hg hc] at hcalls
      simp at hcalls
    · have hc2 : isCancel u.text = false := by simpa using hc
      rw [dispatch_ctx_fill cfg persist store userId u now ctx hg hc2] at hcalls ⊢
      have h := gate_calls_fail persist store userId now ctx.pending
        (multiturnEntities ctx u) (ctx.turnCount + 1) c m hcalls hfail
      refine ⟨h.1, ?_⟩
      rw [h.2]
      exact lookup_clearContext_self store userId

/-- Witness for C3: with an always-failing collaborator, dispatching
"create task called pay rent" makes one failing call, returns the
ActionExecutionError result and leaves no context for the user. -/
theorem dispatch_persist_failure_witness :
    (dispatch cfgEx persistFailEx [] "user-1" uttFailEx 0).1 =
      ⟨false, retryResponse, none, some VoiceError.ActionExecutionError⟩ ∧
    List.lookup "user-1" (dispatch cfgEx persistFailEx [] "user-1" uttFailEx 0).2.1 =
      none :=
  dispatch_persist_failure cfgEx persistFailEx [] "user-1" uttFailEx 0
    ⟨Intent.CreateTask, extract "create task called pay rent" Intent.CreateTask,
      "user-1"⟩ "boom" (by decide) (by decide)

/-- Claim C6: from any stored unexpired context, an explicit cancel
utterance synchronously clears that user's context, returns `success = true`
with the neutral acknowledgement, and never executes the pending intent - no
persistence call occurs. -/
theorem dispatch_cancel_clears (cfg : DispatchConfig)
    (persist : PersistCall → PersistResult) (store : ContextStore)
    (userId : String) (u : Utterance) (now : Nat) (ctx : ConversationContext)
    (hctx : getContext cfg store userId now = some ctx)
    (hcan : isCancel u.text = true) :
    dispatch cfg persist store userId u now =
      (⟨true, cancelResponse, none, none⟩, clearContext store userId, []) ∧
    List.lookup userId (dispatch cfg persist store userId u now).2.1 = none := by
  have h := dispatch_ctx_cancel cfg persist store userId u now ctx hctx hcan
  refine ⟨h, ?_⟩
  rw [h]
  exact lookup_clearContext_self store userId

/-- Witness for C6: "never mind" while user-1 has a pending CreateTask
context acknowledges, clears and calls nothing. -/
theorem dispatch_cancel_clears_witness :
    dispatch cfgEx persistOkEx storePendingEx "user-1" uttCancelEx 150 =
      (⟨true, cancelResponse, none, none⟩,
        clearContext storePendingEx "user-1", []) ∧
    List.lookup "user-1"
      (dispatch cfgEx persistOkEx storePendingEx "user-1" uttCancelEx 150).2.1 =
      none :=
  dispatch_cancel_clears cfgEx persistOkEx storePendingEx "user-1" uttCancelEx
    150 ctxPendingEx (by decide) (by decide)

/-- Claim C7: the entity extractor is a pure, deterministic, total function:
run as an operation over any ambient state, its output depends only on the
text and the intent hint (never on the state), the state is returned
unchanged, a second run on identical input yields an identical EntitySet,
and extraction always returns an EntitySet (it cannot fail by type). -/
theorem extract_pure_deterministic (σ : Type) (st₁ st₂ : σ) (text : String)
    (hint : Intent) :
    (extractRun σ st₁ text hint).1 = (extractRun σ st₂ text hint).1 ∧
    (extractRun σ st₁ text hint).2 = st₁ ∧
    (extractRun σ (extractRun σ st₁ text hint).2 text hint).1 =
      (extractRun σ st₁ text hint).1 ∧
    (extractRun σ st₁ text hint).1 = extract text hint :=
  ⟨rfl, rfl, rfl, rfl⟩


theorem gate_store_shape (persist : PersistCall → PersistResult)
    (store : ContextStore) (userId : String) (now : Nat)
    (ci : ClassifiedIntent) (e : EntitySet) (turns : Nat) :
    (gate persist store userId now ci e turns).2.1 = store ∨
    (gate persist store userId now ci e turns).2.1 = clearContext store userId ∨
    ∃ ctx, (gate persist store userId now ci e turns).2.1 =
      setContext store userId ctx := by
  unfold gate
  split_ifs with h1 h2
  · exact Or.inr (Or.inl (executeIntent_store persist store userId ci e))
  · exact Or.inr (Or.inr ⟨⟨ci, e, now, turns⟩, rfl⟩)
  · exact Or.inl rfl

theorem dispatch_store_shape (cfg : DispatchConfig)
    (persist : PersistCall → PersistResult) (store : ContextStore)
    (userId : String) (u : Utterance) (now : Nat) :
    (dispatch cfg persist store userId u now).2.1 = store ∨
    (dispatch cfg persist store userId u now).2.1 = clearContext store userId ∨
    ∃ ctx, (dispatch cfg persist store userId u now).2.1 =
      setContext store userId ctx := by
  cases hg : getContext cfg store userId now with
  | some ctx =>
    by_cases hc : isCancel u.text = true
    · rw [dispatch_ctx_cancel cfg persist store userId u now ctx hg hc]
      exact Or.inr (Or.inl rfl)
    · have hc2 : isCancel u.text = false := by simpa using hc
      rw [dispatch_ctx_fill cfg persist store userId u now ctx hg hc2]
      exact gate_store_shape persist store userId now ctx.pending
        (multiturnEntities ctx u) (ctx.turnCount + 1)
  | none =>
    rw [dispatch_fresh cfg persist store userId u now hg]
    exact gate_store_shape persist store userId now (classify u.text)
      (extract u.text (classify u.text).intent) 1

theorem dispatch_preserves (cfg : DispatchConfig)
    (persist : PersistCall → PersistResult) (store : ContextStore)
    (userId : String) (u : Utterance) (now : Nat) (h : storeWellFormed store) :
    storeWellFormed (dispatch cfg persist store userId u now).2.1 ∧
    (∀ u', u' ≠ userId →
      List.lookup u' (dispatch cfg persist store userId u now).2.1 =
        List.lookup u' store) := by
  rcases dispatch_store_shape cfg persist store userId u now with hs | hs | ⟨ctx, hs⟩
  · rw [hs]
    exact ⟨h, fun u' _ => rfl⟩
  · rw [hs]
    exact ⟨storeWellFormed_clear store userId h,
      fun u' hu => lookup_clearContext_ne store userId u' hu⟩
  · rw [hs]
    exact ⟨storeWellFormed_set store userId ctx h,
      fun u' hu => lookup_setContext_ne store userId u' ctx hu⟩

theorem runDispatch_wellFormed_aux (cfg : DispatchConfig)
    (persist : PersistCall → PersistResult) :
    ∀ (script : List (String × Utterance × Nat)) (store : ContextStore),
      storeWellFormed store →
      storeWellFormed (script.foldl (dispatchStep cfg persist) store) := by
  intro script
  induction script with
  | nil =>
    intro store h
    exact h
  | cons i t ih =>
    intro store h
    rw [List.foldl_cons]
    refine ih _ ?_
    unfold dispatchStep
    exact (dispatch_preserves cfg persist store i.1 i.2.1 i.2.2 h).1

/-- Claim C4: every store reachable by a sequence of dispatch calls from the
empty store maps each user id to at most one ConversationContext, and every
single dispatch call touches at most that one user's entry - it leaves the
store unchanged, clears the user's entry, or replaces it by exactly one new
entry, and entries of every other user are untouched. -/
theorem dispatch_store_invariant (cfg : DispatchConfig)
    (persist : PersistCall → PersistResult) :
    (∀ script, storeWellFormed (runDispatch cfg persist script)) ∧
    (∀ store userId u now, storeWellFormed store →
      storeWellFormed (dispatch cfg persist store userId u now).2.1 ∧
      (∀ u', u' ≠ userId →
        List.lookup u' (dispatch cfg persist store userId u now).2.1 =
          List.lookup u' store) ∧
      ((dispatch cfg persist store userId u now).2.1 = store ∨
        (dispatch cfg persist store userId u now).2.1 = clearContext store userId ∨
        ∃ ctx, (dispatch cfg persist store userId u now).2.1 =
          setContext store userId ctx)) := by
  constructor
  · intro script
    unfold runDispatch
    exact runDispatch_wellFormed_aux cfg persist script [] (by simp [storeWellFormed])
  · intro store userId u now h
    exact ⟨(dispatch_preserves cfg persist store userId u now h).1,
      (dispatch_preserves cfg persist store userId u now h).2,
      dispatch_store_shape cfg persist store userId u now⟩

/-- Witness for C4: dispatching user-1's utterance against the store that
holds user-1's pending context leaves user-2's (absent) entry untouched. -/
theorem dispatch_store_invariant_witness :
    List.lookup "user-2"
      (dispatch cfgEx persistOkEx storePendingEx "user-1" uttCreateEx 150).2.1 =
      List.lookup "user-2" storePendingEx :=
  ((dispatch_store_invariant cfgEx persistOkEx).2 storePendingEx "user-1"
    uttCreateEx 150 (by simp [storeWellFormed, storePendingEx])).2.1 "user-2"
    (by decide)

theorem getContext_eq_none_of_expired (cfg : DispatchConfig)
    (store : ContextStore) (userId : String) (now : Nat)
    (ctx : ConversationContext) (hmem : List.lookup userId store = some ctx)
    (hexp : isExpired cfg ctx now = true) :
    getContext cfg store userId now = none := by
  unfold getContext
  rw [hmem]
  show (if isExpired cfg ctx now = true then none else some ctx) = none
  rw [if_pos hexp]

theorem getContext_eq_none_of_lookup_none (cfg : DispatchConfig)
    (store : ContextStore) (userId : String) (now : Nat)
    (h : List.lookup userId store = none) :
    getContext cfg store userId now = none := by
  unfold getContext
  rw [h]

theorem isExpired_mono (cfg : DispatchConfig) (ctx : ConversationContext)
    (now now' : Nat) (h : isExpired cfg ctx now = true) (hle : now ≤ now') :
    isExpired cfg ctx now' = true := by
  simp only [isExpired, Bool.or_eq_true, decide_eq_true_eq] at h ⊢
  omega

/-- Claim C5: `isExpired` holds iff `now - lastActivity > inactivityWindow`
or `turnCount >= maxTurns`; and an expired stored context is invisible:
`getContext` returns none for it, and `dispatch` produces the same result
and the same persistence calls as if `clear` had been called for that user,
with the resulting stores indistinguishable to every future reader. -/
theorem expired_context_invisible :
    (∀ (cfg : DispatchConfig) (ctx : ConversationContext) (now : Nat),
      isExpired cfg ctx now = true ↔
        (cfg.inactivityWindow < now - ctx.lastActivity ∨
          cfg.maxTurns ≤ ctx.turnCount)) ∧
    (∀ (cfg : DispatchConfig) (persist : PersistCall → PersistResult)
        (store : ContextStore) (userId : String) (u : Utterance) (now : Nat)
        (ctx : ConversationContext),
      List.lookup userId store = some ctx →
      isExpired cfg ctx now = true →
      getContext cfg store userId now = none ∧
      (dispatch cfg persist store userId u now).1 =
        (dispatch cfg persist (clearContext store userId) userId u now).1 ∧
      (dispatch cfg persist store userId u now).2.2 =
        (dispatch cfg persist (clearContext store userId) userId u now).2.2 ∧
      (∀ u' now', now ≤ now' →
        getContext cfg (dispatch cfg persist store userId u now).2.1 u' now' =
          getContext cfg
            (dispatch cfg persist (clearContext store userId) userId u now).2.1
            u' now')) := by
  constructor
  · intro cfg ctx now
    simp [isExpired, Bool.or_eq_true, decide_eq_true_eq]
  · intro cfg persist store userId u now ctx hmem hexp
    have hg1 : getContext cfg store userId now = none :=
      getContext_eq_none_of_expired cfg store userId now ctx hmem hexp
    have hg2 : getContext cfg (clearContext store userId) userId now = none :=
      getContext_eq_none_of_lookup_none cfg (clearContext store userId) userId now
        (lookup_clearContext_self store userId)
    refine ⟨hg1, ?_⟩
    rw [dispatch_fresh cfg persist store userId u now hg1,
      dispatch_fresh cfg persist (clearContext store userId) userId u now hg2]
    unfold gate
    split_ifs with h1 h2
    · refine ⟨(executeIntent_result_store_independent persist store
          (clearContext store userId) userId _ _).1,
        (executeIntent_result_store_independent persist store
          (clearContext store userId) userId _ _).2, ?_⟩
      intro u' now' hnn
      rw [executeIntent_store persist store userId _ _,
        executeIntent_store persist (clearContext store userId) userId _ _,
        clearContext_idem]
    · refine ⟨rfl, rfl, ?_⟩
      intro u' now' hnn
      rw [setContext_clearContext]
    · refine ⟨rfl, rfl, ?_⟩
      intro u' now' hnn
      by_cases hu : u' = userId
      · subst hu
        rw [getContext_eq_none_of_expired cfg store u' now' ctx hmem
            (isExpired_mono cfg ctx now now' hexp hnn),
          getContext_eq_none_of_lookup_none cfg (clearContext store u') u' now'
            (lookup_clearContext_self store u')]
      · unfold getContext
        rw [lookup_clearContext_ne store userId u' hu]

/-- Witness for C5: user-1's context (last activity 0) is expired at time
400 under a 300-second window, and `getContext` treats it as absent. -/
theorem expired_context_invisible_witness :
    getContext cfgEx storeExpiredEx "user-1" 400 = none :=
  (expired_context_invisible.2 cfgEx persistOkEx storeExpiredEx "user-1"
    uttCreateEx 400 ctxExpiredEx (by decide) (by decide)).1

end VoiceDispatcher

